import Mathlib

/-!
Verification of the cronox repository against its natural-language
specification.

The development shallowly embeds the TypeScript/JavaScript sources:

* `src/constants/cronos.ts` — network constants, `getNetworkConfig`,
  `getExplorerTxUrl`, `getExplorerAddressUrl`, `formatUSDC`, `parseUSDC`,
  `PRICING`, `REFUND_TIERS` (file `src/unnamed/part_002`);
* the dashboard server's payment/refund list and ingestion endpoints
  (file `src/unnamed/part_000`);
* the SLA demo's quality check and refund execution
  (`demoQualityCheck`, `demoRefundExecution` in `src/unnamed/part_003`);
* the deploy script's network table (`src/scripts/deploy.ts`).

JavaScript `number` arithmetic is modelled with exact rationals (`ℚ`);
every concrete input used in a theorem below is chosen so that the IEEE
double computation and the rational computation agree.  JavaScript
`bigint` values are modelled with `Nat` (all amounts in scope are
non-negative).  Fallible operations (`BigInt(...)` on a string, network
lookup with `throw`) are modelled with `Option` / `Except`.
-/

namespace Cronox

/-! ### Decimal strings: JS `Number.prototype.toString` / `BigInt(string)`

`formatUSDC` builds a display string with template interpolation and
`padStart`; `parseUSDC` strips the suffix, splits on `'.'` and feeds the
pieces to `BigInt`.  We model the string primitives over `List Char`. -/

/-- The decimal digit character for a digit value (JS digit rendering). -/
def digitChar : Nat → Char
  | 0 => '0' | 1 => '1' | 2 => '2' | 3 => '3' | 4 => '4'
  | 5 => '5' | 6 => '6' | 7 => '7' | 8 => '8' | 9 => '9'
  | _ => '*'

/-- Little-endian decimal digits of `n`, with explicit fuel so that the
recursion is structural (fuel `n` is always enough). -/
def toDecCore : Nat → Nat → List Nat
  | 0, _ => []
  | fuel + 1, n => if n = 0 then [] else n % 10 :: toDecCore fuel (n / 10)

/-- The character list of the JS decimal rendering of a natural number:
`(0).toString() = "0"`, otherwise the big-endian digit characters. -/
def natToChars (n : Nat) : List Char :=
  if n = 0 then ['0'] else (toDecCore n n).reverse.map digitChar

/-- Digit value of a character, `none` when it is not a decimal digit
(models `BigInt(s)` rejecting non-digit characters). -/
def charDigitVal (c : Char) : Option Nat :=
  if c.isDigit then some (c.toNat - 48) else none

/-- Value of a big-endian digit list. -/
def decValue (l : List Nat) : Nat := l.foldl (fun acc d => acc * 10 + d) 0

/-- JS `BigInt` applied to a character list: fails on the empty string or
on any non-digit character, otherwise reads the decimal value. -/
def jsBigInt (l : List Char) : Option Nat :=
  if l.isEmpty then none else (l.mapM charDigitVal).map decValue

/-- JS `String.prototype.padStart` restricted to character fill. -/
def padStartChars (l : List Char) (n : Nat) (c : Char) : List Char :=
  List.replicate (n - l.length) c ++ l

/-- JS `String.prototype.padEnd` restricted to character fill. -/
def padEndChars (l : List Char) (n : Nat) (c : Char) : List Char :=
  l ++ List.replicate (n - l.length) c

/-- Whether `pat` occurs at the very front of the second list. -/
def leadsWith : List Char → List Char → Bool
  | [], _ => true
  | _ :: _, [] => false
  | p :: ps, c :: cs => p == c && leadsWith ps cs

/-- JS `String.prototype.replace(pat, '')` with a string pattern: remove
the first occurrence of `pat`, leave the string unchanged if absent. -/
def removeFirst (pat : List Char) : List Char → List Char
  | [] => []
  | c :: cs =>
    if leadsWith pat (c :: cs) then (c :: cs).drop pat.length
    else c :: removeFirst pat cs

/-- JS `String.prototype.split('.')`: always returns at least one part. -/
def splitOnDot : List Char → List (List Char)
  | [] => [[]]
  | c :: cs =>
    if c = '.' then [] :: splitOnDot cs
    else
      match splitOnDot cs with
      | [] => [[c]]
      | h :: t => (c :: h) :: t

/-! ### `src/constants/cronos.ts` (src/unnamed/part_002) -/

/-- The suffix appended by `formatUSDC` and stripped by `parseUSDC`. -/
def usdcSuffix : List Char := (" USDC.e" : String).data

/-- `formatUSDC`: display string of an amount in smallest USDC.e units
(6 decimals): `whole.decimal-padded-to-6 USDC.e`. -/
def formatUSDC (amount : Nat) : String :=
  let whole := amount / 1000000
  let decimal := amount % 1000000
  String.mk (natToChars whole ++
    '.' :: (padStartChars (natToChars decimal) 6 '0' ++ usdcSuffix))

/-- `parseUSDC`: strip the first `" USDC.e"`, split on `'.'`, pad/truncate
the decimal part to 6 digits, read both parts with `BigInt`. -/
def parseUSDC (s : String) : Option Nat :=
  let cleaned := removeFirst usdcSuffix s.data
  let parts := splitOnDot cleaned
  let whole := parts.headD []
  let decimal := (parts.drop 1).headD ['0']
  let paddedDecimal := (padEndChars decimal 6 '0').take 6
  match jsBigInt whole, jsBigInt paddedDecimal with
  | some w, some d => some (w * 1000000 + d)
  | _, _ => none

/-- Network descriptor (`CRONOS_MAINNET` / `CRONOS_TESTNET` constants). -/
structure NetworkInfo where
  chainId : Int
  name : String
  rpcUrl : String
  explorerUrl : String
  currencyName : String
  currencySymbol : String
  currencyDecimals : Nat
deriving DecidableEq, Repr

def CRONOS_MAINNET : NetworkInfo :=
  { chainId := 25, name := "Cronos Mainnet", rpcUrl := "https://evm.cronos.org",
    explorerUrl := "https://explorer.cronos.org",
    currencyName := "Cronos", currencySymbol := "CRO", currencyDecimals := 18 }

def CRONOS_TESTNET : NetworkInfo :=
  { chainId := 338, name := "Cronos Testnet", rpcUrl := "https://evm-t3.cronos.org",
    explorerUrl := "https://explorer.cronos.org/testnet",
    currencyName := "Cronos", currencySymbol := "TCRO", currencyDecimals := 18 }

structure TokenSet where
  USDC_E : String
deriving DecidableEq, Repr

def TOKENS_testnet : TokenSet := { USDC_E := "0xc01efAaF7C5C61bEbFAeb358E1161b537b8bC0e0" }

def TOKENS_mainnet : TokenSet := { USDC_E := "0xc21223249CA28397B4B6541dfFaEcC539BfF0c59" }

def X402_FACILITATOR_baseUrl : String := "https://facilitator.cronoslabs.org/v2/x402"

structure PriceEntry where
  amount : String
  description : String
deriving DecidableEq, Repr

def PRICING_premiumData : PriceEntry :=
  { amount := "100000", description := "Premium data access" }

def PRICING_aiInference : PriceEntry :=
  { amount := "500000", description := "AI inference request" }

def PRICING_streamCreation : PriceEntry :=
  { amount := "1000000", description := "SLA-backed stream creation" }

/-- One graduated refund tier (`REFUND_TIERS.tierN`). -/
structure RefundTier where
  threshold : Nat
  refundPercent : Nat
  description : String
deriving DecidableEq, Repr

structure RefundTiers where
  tier1 : RefundTier
  tier2 : RefundTier
  tier3 : RefundTier
deriving DecidableEq, Repr

def REFUND_TIERS : RefundTiers where
  tier1 := { threshold := 1, refundPercent := 10, description := "Minor breach" }
  tier2 := { threshold := 3, refundPercent := 25, description := "Moderate breach" }
  tier3 := { threshold := 5, refundPercent := 50, description := "Severe breach" }

structure NetworkConfigResult where
  network : NetworkInfo
  tokens : TokenSet
deriving DecidableEq, Repr

/-- `getNetworkConfig`: the `throw` on an unsupported chain id is modelled
with `Except.error`, carrying the thrown message. -/
def getNetworkConfig (chainId : Int) : Except String NetworkConfigResult :=
  if chainId = 25 then .ok { network := CRONOS_MAINNET, tokens := TOKENS_mainnet }
  else if chainId = 338 then .ok { network := CRONOS_TESTNET, tokens := TOKENS_testnet }
  else .error ("Unsupported chain ID: " ++ toString chainId)

def getExplorerTxUrl (txHash : String) (chainId : Int := 338) : Except String String :=
  (getNetworkConfig chainId).map fun cfg => cfg.network.explorerUrl ++ "/tx/" ++ txHash

def getExplorerAddressUrl (address : String) (chainId : Int := 338) : Except String String :=
  (getNetworkConfig chainId).map fun cfg => cfg.network.explorerUrl ++ "/address/" ++ address

/-! ### `scripts/deploy.ts` network table -/

structure DeployNetworkConfig where
  name : String
  chainId : Int
  rpcUrlDefault : String
  explorerUrl : String
  envKey : String
  deploymentFile : String
  currency : String
deriving DecidableEq, Repr

/-- `NETWORKS['monad-testnet']` from the deploy script (the rpc url is the
default used when the environment variable is unset). -/
def NETWORKS_monadTestnet : DeployNetworkConfig :=
  { name := "Monad Testnet", chainId := 41454,
    rpcUrlDefault := "https://testnet.monad.xyz",
    explorerUrl := "https://explorer.monad.xyz",
    envKey := "MONAD_RPC_URL",
    deploymentFile := "monad-testnet.json", currency := "ETH" }

/-! ### Dashboard receipt lists (src/unnamed/part_000)

`GET /api/payments` merges records coming from the persistent receipt
store with the module-global in-memory array, deduplicating through a JS
`Map` keyed by `txHash`.  A JS `Map` keeps, for every key, the *last*
value set, at the position of the key's *first* insertion; we model that
construction directly.  The JS array sort with comparator
`(a, b) => b.timestamp - a.timestamp` is a stable descending sort; every
stable sort for the same total preorder produces the same output, so a
stable insertion sort models it exactly. -/

structure Receipt where
  txHash : String
  timestamp : Int
  payload : String
  explorerUrl : Option String
deriving DecidableEq, Repr

/-- The `.map(p => ({...p, explorerUrl: getExplorerTxUrl(p.txHash, chainId)}))`
step; for the chain ids the dashboard runs with (25 or 338) the lookup
always succeeds. -/
def addExplorer (chainId : Int) (r : Receipt) : Receipt :=
  { r with explorerUrl := (getExplorerTxUrl r.txHash chainId).toOption }

/-- One `map.set(k, v)` on a JS `Map` represented as its entry list. -/
def jsMapInsert {κ α : Type} [DecidableEq κ] (m : List (κ × α)) (k : κ) (v : α) :
    List (κ × α) :=
  if m.any (fun p => decide (p.1 = k)) then
    m.map (fun p => if p.1 = k then (k, v) else p)
  else m ++ [(k, v)]

/-- `new Map(pairs)`: set every pair in order, starting from empty. -/
def jsMapOfPairs {κ α : Type} [DecidableEq κ] (pairs : List (κ × α)) : List (κ × α) :=
  pairs.foldl (fun m p => jsMapInsert m p.1 p.2) []

/-- `Array.from(new Map(l.map(p => [p.txHash, p])).values())`. -/
def dedupByTxHash (l : List Receipt) : List Receipt :=
  (jsMapOfPairs (l.map fun r => (r.txHash, r))).map Prod.snd

/-- Stable insertion into a descending list, comparing through `ts`. -/
def jsInsertDesc {α : Type} (ts : α → Int) (r : α) : List α → List α
  | [] => [r]
  | x :: xs => if ts x ≤ ts r then r :: x :: xs else x :: jsInsertDesc ts r xs

/-- Stable descending sort by `ts` (models the JS stable
`sort((a, b) => b.timestamp - a.timestamp)`: all stable sorts of the same
total preorder agree, so insertion sort reproduces the JS result). -/
def jsSortDesc {α : Type} (ts : α → Int) : List α → List α
  | [] => []
  | x :: xs => jsInsertDesc ts x (jsSortDesc ts xs)

/-- The receipt sort `sort((a, b) => b.timestamp - a.timestamp)`. -/
def sortByTsDesc (l : List Receipt) : List Receipt :=
  jsSortDesc (fun r => r.timestamp) l

/-- `Math.min(parseInt(req.query.count) || 20, 100)`: an absent or
unparsable count — and also an explicit `0`, which is falsy — falls back
to 20, then the result is capped at 100. -/
def requestedCount (q : Option Nat) : Nat :=
  min (match q with | none => 20 | some 0 => 20 | some n => n) 100

/-- The merge core of `GET /api/payments` (lines 278-281): concatenate the
two sources, deduplicate by `txHash` through a JS `Map`, sort by timestamp
descending, truncate to the requested count. -/
def mergeReceiptsByTxHash (first second : List Receipt) (count : Nat) : List Receipt :=
  (sortByTsDesc (dedupByTxHash (first ++ second))).take count

/-- The full `GET /api/payments` list computation: the in-memory source is
pre-sorted, truncated and given explorer links before the merge. -/
def getPaymentsHandler (persisted inMemory : List Receipt) (chainId : Int)
    (q : Option Nat) : List Receipt :=
  let count := requestedCount q
  let recent := ((sortByTsDesc inMemory).take count).map (addExplorer chainId)
  mergeReceiptsByTxHash persisted recent count

/-- A refund event as merged by `GET /api/refunds`: the dedup key is
`refundTxHash || index`, so a missing (or empty, hence falsy) refund
transaction hash falls back to the record's position. -/
structure RefundEvent where
  txHash : Option String
  refundTxHash : Option String
  timestamp : Int
  payload : String
  explorerUrl : Option String
deriving DecidableEq, Repr

/-- `r.refundTxHash || i` (empty string is falsy in JS). -/
def refundKey (r : RefundEvent) (i : Nat) : String ⊕ Nat :=
  match r.refundTxHash with
  | some h => if h = "" then .inr i else .inl h
  | none => .inr i

/-- `new Map(allRefunds.map((r, i) => [r.refundTxHash || i, r])).values()`. -/
def dedupRefunds (l : List RefundEvent) : List RefundEvent :=
  (jsMapOfPairs (l.enum.map fun p => (refundKey p.2 p.1, p.2))).map Prod.snd

/-- The refund sort `sort((a, b) => b.timestamp - a.timestamp)`. -/
def sortRefundsByTsDesc (l : List RefundEvent) : List RefundEvent :=
  jsSortDesc (fun r => r.timestamp) l

/-- The merge core of `GET /api/refunds` (lines 322-325). -/
def mergeRefunds (first second : List RefundEvent) (count : Nat) : List RefundEvent :=
  (sortRefundsByTsDesc (dedupRefunds (first ++ second))).take count

/-! ### Dashboard ingestion endpoints (src/unnamed/part_000)

`POST /api/payments` and `POST /api/refunds` build
`{...req.body, timestamp: Date.now()}` and `push` it onto a module-global
array.  JS objects are modelled as association lists; the spread followed
by an explicit `timestamp:` entry overwrites an existing `timestamp` key
in place and otherwise appends it, which `setField` reproduces. -/

inductive JVal where
  | str : String → JVal
  | num : Int → JVal
  | boolean : Bool → JVal
deriving DecidableEq, Repr

abbrev JsObj := List (String × JVal)

def getField (o : JsObj) (k : String) : Option JVal :=
  (o.find? (fun p => p.1 == k)).map Prod.snd

def setField (o : JsObj) (k : String) (v : JVal) : JsObj :=
  if o.any (fun p => p.1 == k) then
    o.map (fun p => if p.1 = k then (k, v) else p)
  else o ++ [(k, v)]

/-- `{...req.body, timestamp: Date.now()}` with `now` the server time. -/
def ingestRecord (body : JsObj) (now : Int) : JsObj :=
  setField body "timestamp" (.num now)

structure PostResponse where
  success : Bool
  record : JsObj
deriving DecidableEq, Repr

/-- `POST /api/payments`: append the stamped record to the global
`x402Payments` array and answer `{success: true, payment}`. -/
def postPaymentsHandler (store : List JsObj) (body : JsObj) (now : Int) :
    List JsObj × PostResponse :=
  let payment := ingestRecord body now
  (store ++ [payment], { success := true, record := payment })

/-- `POST /api/refunds`: append the stamped record to the global
`refundEvents` array and answer `{success: true, refund}`. -/
def postRefundsHandler (store : List JsObj) (body : JsObj) (now : Int) :
    List JsObj × PostResponse :=
  let refund := ingestRecord body now
  (store ++ [refund], { success := true, record := refund })

/-- Number of records in a store whose `txHash` field equals `h`. -/
def countByTxHash (store : List JsObj) (h : String) : Nat :=
  (store.filter (fun o => getField o "txHash" == some (.str h))).length

/-! ### SLA demo: quality check and refund execution (src/unnamed/part_003)

JS `number` arithmetic is modelled exactly over `ℚ`. -/

/-- The demo's tier tag: `'FULL'` or a numeric tier. -/
inductive DemoTier where
  | full : DemoTier
  | numbered : Nat → DemoTier
deriving DecidableEq, Repr

structure QualityResult where
  refundPercent : Nat
  tier : DemoTier
deriving DecidableEq, Repr

/-- `demoQualityCheck`: the refund tier is chosen from the delivery
completion rate `(delivered / requested) * 100`, first match wins. -/
def demoQualityCheck (delivered requested : Nat) : QualityResult :=
  let completionRate : ℚ := (delivered : ℚ) / (requested : ℚ) * 100
  if completionRate < 10 then { refundPercent := 100, tier := .full }
  else if completionRate < 50 then { refundPercent := 50, tier := .numbered 3 }
  else if completionRate < 80 then { refundPercent := 25, tier := .numbered 2 }
  else { refundPercent := 10, tier := .numbered 1 }

/-- The escrow bookkeeping of the demo: the original escrowed balance and
the list of refund amounts issued so far. -/
structure EscrowState where
  balance : ℚ
  refunds : List ℚ
deriving DecidableEq, Repr

/-- The refund amount `demoRefundExecution` computes:
`(escrowState.balance * qualityResult.refundPercent) / 100`. -/
def refundAmountJS (balance refundPercent : ℚ) : ℚ :=
  balance * refundPercent / 100

/-- `demoRefundExecution`'s effect on the escrow state: push the refund
record; the balance is never reduced and no cumulative total is kept. -/
def demoRefundExecution (s : EscrowState) (refundPercent : ℚ) : EscrowState :=
  { s with refunds := s.refunds ++ [refundAmountJS s.balance refundPercent] }

/-- Run a sequence of confirmed breaches through `demoRefundExecution`. -/
def runRefunds (s : EscrowState) : List ℚ → EscrowState
  | [] => s
  | p :: ps => runRefunds (demoRefundExecution s p) ps

/-- Sum of all refund amounts issued for the stream. -/
def totalRefunded (s : EscrowState) : ℚ := s.refunds.sum

/-- The refund formula as the spec words it:
`refundAmount = floor(originalAmount * refundPercent / 100)`, in exact
integer arithmetic (`Nat` division floors). -/
def refundAmountSpec (originalAmount refundPercent : Nat) : Nat :=
  originalAmount * refundPercent / 100

/-! ### Seller API challenge (modelled) -/

structure X402Challenge where
  schemaVersion : String
  paymentRequired : Bool
  amount : String
  currency : String
  recipient : String
  chainId : Int
  tokenAddress : String
  facilitatorUrl : String
deriving DecidableEq, Repr

/-- Modelled from the spec: the seller API (`apps/seller-api/index.ts`) is
not under `src/`; only its tests, the dry-run scripts and the pricing
constants are.  Per §6 and §8 of the spec, a request to the protected
premium-data endpoint that carries no payment header is answered with
status 402 and a challenge assembled from the repository's constants
(`PRICING.premiumData.amount`, currency `USDC.e`, the seller address,
chain id 338, `TOKENS.testnet.USDC_E`, `X402_FACILITATOR.baseUrl`, schema
version `1.0.0` as checked by the dry-run script), and the server state is
untouched.  The paid path is outside this claim and is left abstract. -/
def premiumDataHandler (sellerAddress : String) (paymentHeader : Option String)
    (st : List JsObj) : (Nat × Option X402Challenge) × List JsObj :=
  match paymentHeader with
  | none =>
    ((402, some { schemaVersion := "1.0.0", paymentRequired := true,
                  amount := PRICING_premiumData.amount, currency := "USDC.e",
                  recipient := sellerAddress, chainId := 338,
                  tokenAddress := TOKENS_testnet.USDC_E,
                  facilitatorUrl := X402_FACILITATOR_baseUrl }), st)
  | some _ => ((200, none), st)

/-! #### Lemmas about the decimal-string primitives -/

theorem toDecCore_lt_ten (fuel n : Nat) : ∀ d ∈ toDecCore fuel n, d < 10 := by
  induction fuel generalizing n with
  | zero => intro d hd; simp [toDecCore] at hd
  | succ fuel ih =>
    intro d hd
    by_cases hn : n = 0
    · simp [toDecCore, hn] at hd
    · simp only [toDecCore, if_neg hn, List.mem_cons] at hd
      rcases hd with h | h
      · subst h; exact Nat.mod_lt _ (by norm_num)
      · exact ih _ d h

theorem ofDigits_toDecCore (fuel n : Nat) (h : n ≤ fuel) :
    Nat.ofDigits 10 (toDecCore fuel n) = n := by
  induction fuel generalizing n with
  | zero => interval_cases n; simp [toDecCore]
  | succ fuel ih =>
    by_cases hn : n = 0
    · simp [toDecCore, hn]
    · have hdiv : n / 10 ≤ fuel := by
        have : n / 10 < n := Nat.div_lt_self (Nat.pos_of_ne_zero hn) (by norm_num)
        omega
      simp only [toDecCore, if_neg hn, Nat.ofDigits_cons, ih _ hdiv]
      omega

theorem toDecCore_length (fuel n k : Nat) (h : n < 10 ^ k) :
    (toDecCore fuel n).length ≤ k := by
  induction fuel generalizing n k with
  | zero => simp [toDecCore]
  | succ fuel ih =>
    by_cases hn : n = 0
    · simp [toDecCore, hn]
    · have hk : k ≠ 0 := by
        rintro rfl
        simp only [pow_zero] at h
        omega
      obtain ⟨k', rfl⟩ : ∃ k', k = k' + 1 := ⟨k - 1, by omega⟩
      have hdiv : n / 10 < 10 ^ k' := by
        rw [Nat.div_lt_iff_lt_mul (by norm_num)]
        calc n < 10 ^ (k' + 1) := h
        _ = 10 ^ k' * 10 := by ring
      simp only [toDecCore, if_neg hn, List.length_cons]
      exact Nat.succ_le_succ (ih _ _ hdiv)

theorem toDecCore_ne_nil (n : Nat) (hn : n ≠ 0) : toDecCore n n ≠ [] := by
  obtain ⟨m, rfl⟩ : ∃ m, n = m + 1 := ⟨n - 1, by omega⟩
  simp [toDecCore, hn]

theorem decValue_foldl (L : List Nat) (a : Nat) :
    L.foldl (fun acc d => acc * 10 + d) a = a * 10 ^ L.length + decValue L := by
  induction L generalizing a with
  | nil => simp [decValue]
  | cons d L ih =>
    simp only [List.foldl_cons, decValue, List.length_cons]
    rw [ih (a * 10 + d)]
    have h0 : (0 : Nat) * 10 + d = d := by omega
    rw [h0, ih d]
    ring

theorem decValue_cons (d : Nat) (L : List Nat) :
    decValue (d :: L) = d * 10 ^ L.length + decValue L := by
  simp only [decValue, List.foldl_cons]
  simpa using decValue_foldl L d

theorem decValue_append (L M : List Nat) :
    decValue (L ++ M) = decValue L * 10 ^ M.length + decValue M := by
  simp only [decValue, List.foldl_append]
  exact decValue_foldl M _

theorem decValue_reverse (L : List Nat) :
    decValue L.reverse = Nat.ofDigits 10 L := by
  induction L with
  | nil => simp [decValue, Nat.ofDigits]
  | cons d L ih =>
    simp only [List.reverse_cons, decValue_append, Nat.ofDigits_cons, ih]
    simp [decValue]
    ring

theorem decValue_replicate_zero (k : Nat) (L : List Nat) :
    decValue (List.replicate k 0 ++ L) = decValue L := by
  rw [decValue_append]
  have : decValue (List.replicate k 0) = 0 := by
    induction k with
    | zero => simp [decValue]
    | succ k ih =>
      rw [List.replicate_succ]
      rw [decValue_cons, ih]
      simp
  simp [this]

theorem charDigitVal_digitChar (d : Nat) (h : d < 10) :
    charDigitVal (digitChar d) = some d := by
  interval_cases d <;> decide

theorem digitChar_ne_space (d : Nat) (h : d < 10) : digitChar d ≠ ' ' := by
  interval_cases d <;> decide

theorem digitChar_ne_dot (d : Nat) (h : d < 10) : digitChar d ≠ '.' := by
  interval_cases d <;> decide

theorem mapM_charDigitVal_map_digitChar (L : List Nat) (h : ∀ d ∈ L, d < 10) :
    (L.map digitChar).mapM charDigitVal = some L := by
  induction L with
  | nil => rfl
  | cons d L ih =>
    have hd : d < 10 := h d (by simp)
    have hL : ∀ x ∈ L, x < 10 := fun x hx => h x (by simp [hx])
    simp only [List.map_cons, List.mapM_cons, charDigitVal_digitChar d hd, ih hL]
    rfl

theorem jsBigInt_map_digitChar (L : List Nat) (h : ∀ d ∈ L, d < 10) (hne : L ≠ []) :
    jsBigInt (L.map digitChar) = some (decValue L) := by
  unfold jsBigInt
  rw [if_neg (by simp [hne]), mapM_charDigitVal_map_digitChar L h]
  rfl

theorem jsBigInt_natToChars (n : Nat) : jsBigInt (natToChars n) = some n := by
  by_cases hn : n = 0
  · subst hn; decide
  · unfold natToChars
    rw [if_neg hn]
    have hmap : (toDecCore n n).reverse.map digitChar
        = ((toDecCore n n).reverse).map digitChar := rfl
    rw [jsBigInt_map_digitChar _ (fun d hd => toDecCore_lt_ten n n d (by simpa using hd))
        (by simp [toDecCore_ne_nil n hn])]
    rw [decValue_reverse, ofDigits_toDecCore n n le_rfl]

theorem natToChars_digits (n : Nat) : ∀ c ∈ natToChars n, ∃ d, d < 10 ∧ c = digitChar d := by
  intro c hc
  unfold natToChars at hc
  by_cases hn : n = 0
  · rw [if_pos hn] at hc
    exact ⟨0, by norm_num, by simpa using hc⟩
  · rw [if_neg hn] at hc
    obtain ⟨d, hd, rfl⟩ := List.mem_map.1 hc
    exact ⟨d, toDecCore_lt_ten n n d (by simpa using hd), rfl⟩

theorem natToChars_length_le (n k : Nat) (h : n < 10 ^ k) (hk : 0 < k) :
    (natToChars n).length ≤ k := by
  unfold natToChars
  by_cases hn : n = 0
  · simpa [hn] using hk
  · rw [if_neg hn]
    simpa using toDecCore_length n n k h

theorem leadsWith_append (pat rest : List Char) : leadsWith pat (pat ++ rest) = true := by
  induction pat with
  | nil => rfl
  | cons p ps ih => simp [leadsWith, ih]

theorem removeFirst_append (p : List Char) (A : List Char)
    (hA : ∀ c ∈ A, c ≠ ' ') :
    removeFirst (' ' :: p) (A ++ ' ' :: p) = A := by
  induction A with
  | nil =>
    show removeFirst (' ' :: p) (' ' :: p) = []
    unfold removeFirst
    rw [if_pos (by simpa using leadsWith_append (' ' :: p) [])]
    simp
  | cons c A ih =>
    have hc : c ≠ ' ' := hA c (by simp)
    have hA' : ∀ x ∈ A, x ≠ ' ' := fun x hx => hA x (by simp [hx])
    show removeFirst (' ' :: p) (c :: (A ++ ' ' :: p)) = c :: A
    unfold removeFirst
    rw [if_neg]
    · rw [ih hA']
    · simp only [leadsWith]
      simp [Ne.symm hc]

theorem splitOnDot_no_dot (B : List Char) (hB : ∀ c ∈ B, c ≠ '.') :
    splitOnDot B = [B] := by
  induction B with
  | nil => rfl
  | cons c B ih =>
    have hc : c ≠ '.' := hB c (by simp)
    have hB' : ∀ x ∈ B, x ≠ '.' := fun x hx => hB x (by simp [hx])
    unfold splitOnDot
    rw [if_neg hc, ih hB']

theorem natToChars_repr (n : Nat) :
    ∃ L, natToChars n = L.map digitChar ∧ (∀ d ∈ L, d < 10) ∧ L ≠ [] ∧ decValue L = n := by
  by_cases hn : n = 0
  · subst hn
    exact ⟨[0], by decide, by norm_num, by simp, by decide⟩
  · refine ⟨(toDecCore n n).reverse, by simp [natToChars, hn], ?_, ?_, ?_⟩
    · intro d hd
      exact toDecCore_lt_ten n n d (by simpa using hd)
    · simp [toDecCore_ne_nil n hn]
    · rw [decValue_reverse, ofDigits_toDecCore n n le_rfl]

theorem jsBigInt_padStart_natToChars (n k : Nat) :
    jsBigInt (padStartChars (natToChars n) k '0') = some n := by
  obtain ⟨L, hEq, hlt, hne, hval⟩ := natToChars_repr n
  have hrepr : padStartChars (natToChars n) k '0'
      = (List.replicate (k - (natToChars n).length) 0 ++ L).map digitChar := by
    rw [padStartChars, hEq, List.map_append, List.map_replicate]
    rfl
  rw [hrepr, jsBigInt_map_digitChar]
  · rw [decValue_replicate_zero, hval]
  · intro d hd
    rcases List.mem_append.1 hd with h | h
    · have := List.eq_of_mem_replicate h
      omega
    · exact hlt d h
  · simp [hne]

theorem padStartChars_length (l : List Char) (n : Nat) (c : Char) (h : l.length ≤ n) :
    (padStartChars l n c).length = n := by
  simp only [padStartChars, List.length_append, List.length_replicate]
  omega

theorem splitOnDot_append (A B : List Char) (hA : ∀ c ∈ A, c ≠ '.') :
    splitOnDot (A ++ '.' :: B) = A :: splitOnDot B := by
  induction A with
  | nil => simp [splitOnDot]
  | cons c A ih =>
    have hc : c ≠ '.' := hA c (by simp)
    have hA' : ∀ x ∈ A, x ≠ '.' := fun x hx => hA x (by simp [hx])
    show splitOnDot (c :: (A ++ '.' :: B)) = (c :: A) :: splitOnDot B
    simp only [splitOnDot, if_neg hc, ih hA']

theorem parseUSDC_shape (W D : List Char)
    (hWdig : ∀ c ∈ W, ∃ d, d < 10 ∧ c = digitChar d)
    (hDdig : ∀ c ∈ D, ∃ d, d < 10 ∧ c = digitChar d)
    (hDlen : D.length = 6) :
    parseUSDC (String.mk ((W ++ '.' :: D) ++ usdcSuffix))
      = match jsBigInt W, jsBigInt D with
        | some w, some d => some (w * 1000000 + d)
        | _, _ => none := by
  have hWnospace : ∀ c ∈ W, c ≠ ' ' := fun c hc => by
    obtain ⟨d, hd, rfl⟩ := hWdig c hc; exact digitChar_ne_space d hd
  have hDnospace : ∀ c ∈ D, c ≠ ' ' := fun c hc => by
    obtain ⟨d, hd, rfl⟩ := hDdig c hc; exact digitChar_ne_space d hd
  have hWnodot : ∀ c ∈ W, c ≠ '.' := fun c hc => by
    obtain ⟨d, hd, rfl⟩ := hWdig c hc; exact digitChar_ne_dot d hd
  have hDnodot : ∀ c ∈ D, c ≠ '.' := fun c hc => by
    obtain ⟨d, hd, rfl⟩ := hDdig c hc; exact digitChar_ne_dot d hd
  have hAnospace : ∀ c ∈ W ++ '.' :: D, c ≠ ' ' := by
    intro c hc
    rcases List.mem_append.1 hc with h | h
    · exact hWnospace c h
    · rcases List.mem_cons.1 h with rfl | h
      · decide
      · exact hDnospace c h
  have hsuffix : usdcSuffix = ' ' :: ("USDC.e" : String).data := rfl
  have hclean : removeFirst usdcSuffix ((W ++ '.' :: D) ++ usdcSuffix)
      = W ++ '.' :: D := by
    rw [hsuffix]
    exact removeFirst_append _ _ hAnospace
  have hsplit : splitOnDot (W ++ '.' :: D) = [W, D] := by
    rw [splitOnDot_append W D hWnodot, splitOnDot_no_dot D hDnodot]
  have hpad : (padEndChars D 6 '0').take 6 = D := by
    rw [padEndChars, hDlen]
    simp only [Nat.sub_self, List.replicate_zero, List.append_nil]
    exact List.take_of_length_le (by omega)
  simp only [parseUSDC, String.data]
  rw [hclean, hsplit]
  simp only [List.headD, List.drop, hpad]

/-- C9: for every non-negative amount of smallest USDC.e units,
`parseUSDC (formatUSDC v) = v` — formatting an amount to its display
string and parsing the string back is the identity. -/
theorem C9_parseUSDC_formatUSDC_roundtrip (v : Nat) :
    parseUSDC (formatUSDC v) = some v := by
  have hmod : v % 1000000 < 10 ^ 6 := by
    have := Nat.mod_lt v (show 0 < 1000000 by norm_num)
    norm_num
    omega
  have hlen : (natToChars (v % 1000000)).length ≤ 6 :=
    natToChars_length_le _ 6 hmod (by norm_num)
  have hform : formatUSDC v
      = String.mk ((natToChars (v / 1000000)
          ++ '.' :: padStartChars (natToChars (v % 1000000)) 6 '0') ++ usdcSuffix) := by
    simp [formatUSDC, List.append_assoc]
  have hDdig : ∀ c ∈ padStartChars (natToChars (v % 1000000)) 6 '0',
      ∃ d, d < 10 ∧ c = digitChar d := by
    intro c hc
    rw [padStartChars] at hc
    rcases List.mem_append.1 hc with h | h
    · exact ⟨0, by norm_num, List.eq_of_mem_replicate h⟩
    · exact natToChars_digits _ c h
  rw [hform, parseUSDC_shape _ _ (natToChars_digits _) hDdig
      (padStartChars_length _ 6 '0' hlen)]
  rw [jsBigInt_natToChars, jsBigInt_padStart_natToChars]
  have : v / 1000000 * 1000000 + v % 1000000 = v := by omega
  simp [this]

/-! ### C8: unsupported chain ids -/

/-- C8: every chain id other than 25 and 338 makes `getNetworkConfig`
throw `Unsupported chain ID`, hence both explorer-URL helpers fail for
such ids — in particular for the Monad testnet chain id 41454 that the
deploy script's `NETWORKS['monad-testnet']` entry passes to
`getExplorerAddressUrl`. -/
theorem C8_unsupported_chain_id (chainId : Int)
    (h25 : chainId ≠ 25) (h338 : chainId ≠ 338) :
    getNetworkConfig chainId
      = .error ("Unsupported chain ID: " ++ toString chainId)
    ∧ (∀ txHash, getExplorerTxUrl txHash chainId
        = .error ("Unsupported chain ID: " ++ toString chainId))
    ∧ (∀ address, getExplorerAddressUrl address chainId
        = .error ("Unsupported chain ID: " ++ toString chainId))
    ∧ NETWORKS_monadTestnet.chainId = 41454 := by
  have herr : getNetworkConfig chainId
      = .error ("Unsupported chain ID: " ++ toString chainId) := by
    unfold getNetworkConfig
    rw [if_neg h25, if_neg h338]
  refine ⟨herr, ?_, ?_, rfl⟩
  · intro txHash
    unfold getExplorerTxUrl
    rw [herr]
    rfl
  · intro address
    unfold getExplorerAddressUrl
    rw [herr]
    rfl

/-- Witness for C8 at the deploy script's Monad testnet chain id. -/
theorem C8_unsupported_chain_id_witness :
    (41454 : Int) ≠ 25 ∧ (41454 : Int) ≠ 338 ∧
    getExplorerAddressUrl "0x1234" NETWORKS_monadTestnet.chainId
      = .error ("Unsupported chain ID: " ++ toString (41454 : Int)) :=
  ⟨by decide, by decide,
    (C8_unsupported_chain_id 41454 (by decide) (by decide)).2.2.1 "0x1234"⟩

/-! ### C7: refund amount monotone in tier -/

theorem refundAmountJS_mono (a p q : ℚ) (ha : 0 ≤ a) (hpq : p ≤ q) :
    refundAmountJS a p ≤ refundAmountJS a q := by
  unfold refundAmountJS
  exact div_le_div_of_nonneg_right (mul_le_mul_of_nonneg_left hpq ha) (by norm_num)

/-- C7: for a fixed non-negative original amount the refund amount is
monotonically non-decreasing across the tiers Minor (`REFUND_TIERS.tier1`,
10%), Moderate (`tier2`, 25%), Severe (`tier3`, 50%) and the demo's
Critical full refund (100%). -/
theorem C7_refund_monotone_in_tier (amount : ℚ) (ha : 0 ≤ amount) :
    refundAmountJS amount (REFUND_TIERS.tier1.refundPercent : ℚ)
      ≤ refundAmountJS amount (REFUND_TIERS.tier2.refundPercent : ℚ)
    ∧ refundAmountJS amount (REFUND_TIERS.tier2.refundPercent : ℚ)
      ≤ refundAmountJS amount (REFUND_TIERS.tier3.refundPercent : ℚ)
    ∧ refundAmountJS amount (REFUND_TIERS.tier3.refundPercent : ℚ)
      ≤ refundAmountJS amount 100 := by
  refine ⟨?_, ?_, ?_⟩ <;>
    exact refundAmountJS_mono amount _ _ ha (by norm_num [REFUND_TIERS])

/-- Witness for C7 at the spec's example amount 1,000,000. -/
theorem C7_refund_monotone_in_tier_witness :
    (0 : ℚ) ≤ 1000000
    ∧ (refundAmountJS 1000000 (REFUND_TIERS.tier1.refundPercent : ℚ)
        ≤ refundAmountJS 1000000 (REFUND_TIERS.tier2.refundPercent : ℚ)
      ∧ refundAmountJS 1000000 (REFUND_TIERS.tier2.refundPercent : ℚ)
        ≤ refundAmountJS 1000000 (REFUND_TIERS.tier3.refundPercent : ℚ)
      ∧ refundAmountJS 1000000 (REFUND_TIERS.tier3.refundPercent : ℚ)
        ≤ refundAmountJS 1000000 100) :=
  ⟨by norm_num, C7_refund_monotone_in_tier 1000000 (by norm_num)⟩

/-! ### C6: 402 challenge for the unpaid premium-data request -/

/-- C6: a request to the premium-data endpoint with no payment header is
answered with status 402 and a body carrying schema version `1.0.0`,
`paymentRequired = true`, the decimal-string amount `100000`, currency
`USDC.e`, the recipient address, chain id 338, the token address and the
facilitator base URL; the server state is unchanged and repeating the
unpaid request produces the identical response. -/
theorem C6_premium_data_402 (sellerAddress : String) (st : List JsObj) :
    premiumDataHandler sellerAddress none st
      = ((402, some { schemaVersion := "1.0.0", paymentRequired := true,
                      amount := "100000", currency := "USDC.e",
                      recipient := sellerAddress, chainId := 338,
                      tokenAddress := "0xc01efAaF7C5C61bEbFAeb358E1161b537b8bC0e0",
                      facilitatorUrl := "https://facilitator.cronoslabs.org/v2/x402" }), st)
    ∧ (premiumDataHandler sellerAddress none
        (premiumDataHandler sellerAddress none st).2
        = premiumDataHandler sellerAddress none st) := by
  exact ⟨rfl, rfl⟩

/-! ### C5: refund amount formula -/

/-- C5 counterexample: at original amount 5 and refund percent 10 the code
computes the exact value 1/2 (no flooring, JS division), while the spec's
`floor(originalAmount * refundPercent / 100)` gives 0. -/
theorem C5_counterexample :
    refundAmountJS 5 10 = 1 / 2
    ∧ refundAmountSpec 5 10 = 0
    ∧ refundAmountJS 5 10 ≠ ((refundAmountSpec 5 10 : Nat) : ℚ) := by
  refine ⟨by norm_num [refundAmountJS], by norm_num [refundAmountSpec], ?_⟩
  norm_num [refundAmountJS, refundAmountSpec]

/-- C5 amended: the refund amount is the exact rational
`originalAmount * refundPercent / 100` with no flooring; it coincides
with the spec's floor formula exactly when 100 divides
`originalAmount * refundPercent` (as it does for all amounts and percents
used in the demo). -/
theorem C5_amended_refund_exact (originalAmount refundPercent : Nat)
    (h : 100 ∣ originalAmount * refundPercent) :
    refundAmountJS (originalAmount : ℚ) (refundPercent : ℚ)
      = ((originalAmount * refundPercent : Nat) : ℚ) / 100
    ∧ refundAmountJS (originalAmount : ℚ) (refundPercent : ℚ)
      = ((refundAmountSpec originalAmount refundPercent : Nat) : ℚ) := by
  constructor
  · unfold refundAmountJS
    push_cast
    ring
  · unfold refundAmountJS refundAmountSpec
    rw [Nat.cast_div h (by norm_num)]
    push_cast
    ring

/-- Witness for C5 amended at the demo's values (5 USDC, 100%). -/
theorem C5_amended_refund_exact_witness :
    (100 ∣ 5000000 * 100)
    ∧ refundAmountJS ((5000000 : Nat) : ℚ) ((100 : Nat) : ℚ)
        = ((5000000 * 100 : Nat) : ℚ) / 100
    ∧ refundAmountJS ((5000000 : Nat) : ℚ) ((100 : Nat) : ℚ)
        = ((refundAmountSpec 5000000 100 : Nat) : ℚ) := by
  have h : (100 ∣ 5000000 * 100) := by norm_num
  exact ⟨h, (C5_amended_refund_exact 5000000 100 h).1,
    (C5_amended_refund_exact 5000000 100 h).2⟩

/-! ### C2: cumulative refunds versus the original escrow -/

theorem runRefunds_balance (s : EscrowState) (ps : List ℚ) :
    (runRefunds s ps).balance = s.balance := by
  induction ps generalizing s with
  | nil => rfl
  | cons p ps ih => simpa [runRefunds, demoRefundExecution] using ih (demoRefundExecution s p)

theorem totalRefunded_runRefunds (s : EscrowState) (ps : List ℚ) :
    totalRefunded (runRefunds s ps) = totalRefunded s + s.balance * ps.sum / 100 := by
  induction ps generalizing s with
  | nil => simp [runRefunds, totalRefunded]
  | cons p ps ih =>
    have hstep : totalRefunded (demoRefundExecution s p)
        = totalRefunded s + s.balance * p / 100 := by
      simp [demoRefundExecution, totalRefunded, refundAmountJS]
    have hbal : (demoRefundExecution s p).balance = s.balance := rfl
    show totalRefunded (runRefunds (demoRefundExecution s p) ps) = _
    rw [ih (demoRefundExecution s p), hstep, hbal, List.sum_cons]
    ring

/-- C2 counterexample: two successive confirmed breaches both refunded at
100% pay out twice the original escrowed amount — `demoRefundExecution`
keeps no cumulative refunded total and clamps nothing. -/
theorem C2_counterexample :
    totalRefunded (runRefunds { balance := 5000000, refunds := [] } [100, 100])
      = 10000000
    ∧ ¬ totalRefunded (runRefunds { balance := 5000000, refunds := [] } [100, 100])
        ≤ (5000000 : ℚ) := by
  have h : totalRefunded (runRefunds { balance := 5000000, refunds := [] } [100, 100])
      = 10000000 := by
    rw [totalRefunded_runRefunds]
    norm_num [totalRefunded]
  refine ⟨h, ?_⟩
  rw [h]
  norm_num

/-- C2 amended: each refund is `balance * percent / 100` against the
never-decreasing original balance, so a sequence of confirmed breaches
pays out exactly `original * (sum of percents) / 100`; the payout stays
within the original escrowed amount only when the percents sum to at most
100 — no per-stream cumulative tracking or clamping exists in the code. -/
theorem C2_amended_no_clamping (balance : ℚ) (hb : 0 ≤ balance)
    (ps : List ℚ) (hsum : ps.sum ≤ 100) :
    totalRefunded (runRefunds { balance := balance, refunds := [] } ps)
      = balance * ps.sum / 100
    ∧ totalRefunded (runRefunds { balance := balance, refunds := [] } ps) ≤ balance := by
  have h : totalRefunded (runRefunds { balance := balance, refunds := [] } ps)
      = balance * ps.sum / 100 := by
    rw [totalRefunded_runRefunds]
    simp [totalRefunded]
  refine ⟨h, ?_⟩
  rw [h]
  calc balance * ps.sum / 100 ≤ balance * 100 / 100 := by
        exact div_le_div_of_nonneg_right (mul_le_mul_of_nonneg_left hsum hb) (by norm_num)
  _ = balance := by ring

/-- Witness for C2 amended: one Minor (10%) and one Moderate (25%) refund
on a 1,000,000-unit escrow pay out 350,000 in total. -/
theorem C2_amended_no_clamping_witness :
    (0 : ℚ) ≤ 1000000 ∧ ([(10 : ℚ), 25].sum ≤ 100)
    ∧ totalRefunded (runRefunds { balance := 1000000, refunds := [] } [10, 25])
        = 1000000 * [(10 : ℚ), 25].sum / 100
    ∧ totalRefunded (runRefunds { balance := 1000000, refunds := [] } [10, 25])
        ≤ (1000000 : ℚ) := by
  have h := C2_amended_no_clamping 1000000 (by norm_num) [10, 25] (by norm_num)
  exact ⟨by norm_num, by norm_num, h.1, h.2⟩

/-! ### C3: tier selection in the demo quality check -/

theorem completionRate_lt_ten_iff (d r : Nat) (hr : 0 < r) :
    ((d : ℚ) / (r : ℚ) * 100 < 10) ↔ d * 100 < 10 * r := by
  have hrQ : (0 : ℚ) < (r : ℚ) := by exact_mod_cast hr
  rw [div_mul_eq_mul_div, div_lt_iff₀ hrQ]
  exact_mod_cast Iff.rfl

theorem completionRate_lt_fifty_iff (d r : Nat) (hr : 0 < r) :
    ((d : ℚ) / (r : ℚ) * 100 < 50) ↔ d * 100 < 50 * r := by
  have hrQ : (0 : ℚ) < (r : ℚ) := by exact_mod_cast hr
  rw [div_mul_eq_mul_div, div_lt_iff₀ hrQ]
  exact_mod_cast Iff.rfl

theorem completionRate_lt_eighty_iff (d r : Nat) (hr : 0 < r) :
    ((d : ℚ) / (r : ℚ) * 100 < 80) ↔ d * 100 < 80 * r := by
  have hrQ : (0 : ℚ) < (r : ℚ) := by exact_mod_cast hr
  rw [div_mul_eq_mul_div, div_lt_iff₀ hrQ]
  exact_mod_cast Iff.rfl

/-- C3 counterexample: a single qualifying breach — the demo's delivery
failure with 3 of 50 pages delivered — is mapped by `demoQualityCheck` to
a 100% full refund, not to the Minor tier's default 10%. -/
theorem C3_counterexample :
    demoQualityCheck 3 50 = { refundPercent := 100, tier := .full }
    ∧ (demoQualityCheck 3 50).refundPercent ≠ REFUND_TIERS.tier1.refundPercent := by
  have h : ((3 : ℚ) / 50 * 100 < 10) := by norm_num
  have heq : demoQualityCheck 3 50 = { refundPercent := 100, tier := .full } := by
    unfold demoQualityCheck
    norm_num
  refine ⟨heq, ?_⟩
  rw [heq]
  norm_num [REFUND_TIERS]

/-- C3 amended: the static `REFUND_TIERS` table does fix thresholds of 1,
3 and 5 breaches at 10%, 25% and 50% (Minor/Moderate/Severe), but the
quality check selects the refund from the delivery completion rate, first
match wins: below 10% completion → 100% full refund, below 50% → 50%
(tier 3), below 80% → 25% (tier 2), otherwise 10% (tier 1); no Critical
tier or catastrophic-breach rule exists in the code. -/
theorem C3_amended_tier_mapping (delivered requested : Nat) (hr : 0 < requested) :
    REFUND_TIERS.tier1.threshold = 1 ∧ REFUND_TIERS.tier1.refundPercent = 10
    ∧ REFUND_TIERS.tier2.threshold = 3 ∧ REFUND_TIERS.tier2.refundPercent = 25
    ∧ REFUND_TIERS.tier3.threshold = 5 ∧ REFUND_TIERS.tier3.refundPercent = 50
    ∧ demoQualityCheck delivered requested
        = (if delivered * 100 < 10 * requested then
             { refundPercent := 100, tier := .full }
           else if delivered * 100 < 50 * requested then
             { refundPercent := 50, tier := .numbered 3 }
           else if delivered * 100 < 80 * requested then
             { refundPercent := 25, tier := .numbered 2 }
           else { refundPercent := 10, tier := .numbered 1 }) := by
  refine ⟨rfl, rfl, rfl, rfl, rfl, rfl, ?_⟩
  have h10 := completionRate_lt_ten_iff delivered requested hr
  have h50 := completionRate_lt_fifty_iff delivered requested hr
  have h80 := completionRate_lt_eighty_iff delivered requested hr
  simp only [demoQualityCheck, h10, h50, h80]

/-- Witness for C3 amended at the demo's service result (3 of 50 pages). -/
theorem C3_amended_tier_mapping_witness :
    (0 < 50)
    ∧ demoQualityCheck 3 50
        = (if 3 * 100 < 10 * 50 then
             ({ refundPercent := 100, tier := .full } : QualityResult)
           else if 3 * 100 < 50 * 50 then
             { refundPercent := 50, tier := .numbered 3 }
           else if 3 * 100 < 80 * 50 then
             { refundPercent := 25, tier := .numbered 2 }
           else { refundPercent := 10, tier := .numbered 1 }) :=
  ⟨by norm_num, (C3_amended_tier_mapping 3 50 (by norm_num)).2.2.2.2.2.2⟩

/-! ### Field lookup lemmas for the ingestion endpoints -/

theorem getField_cons (a : String) (b : JVal) (o : JsObj) (k : String) :
    getField ((a, b) :: o) k = if a == k then some b else getField o k := by
  unfold getField
  rw [List.find?_cons]
  by_cases h : (a == k) <;> simp [h]

theorem getField_map_overwrite (o : JsObj) (k : String) (v : JVal) :
    getField (o.map fun p => if p.1 = k then (k, v) else p) k
      = if o.any (fun p => p.1 == k) then some v else none := by
  induction o with
  | nil => rfl
  | cons p o ih =>
    obtain ⟨a, b⟩ := p
    by_cases hp : a = k
    · subst hp
      simp [getField_cons, List.any_cons]
    · have hb : (a == k) = false := by simp [hp]
      simp [getField_cons, List.any_cons, hp, hb, ih]
      refine if_congr ?_ rfl rfl
      rw [hb]
      simp

theorem getField_map_overwrite_other (o : JsObj) (k k' : String) (v : JVal)
    (h : k' ≠ k) :
    getField (o.map fun p => if p.1 = k then (k, v) else p) k' = getField o k' := by
  induction o with
  | nil => rfl
  | cons p o ih =>
    obtain ⟨a, b⟩ := p
    by_cases hp : a = k
    · subst hp
      have hne : ¬(a = k') := fun hh => h hh.symm
      simp [getField_cons, hne, ih]
    · simp [getField_cons, hp, ih]

theorem getField_append_absent (o : JsObj) (k : String) (v : JVal)
    (h : ¬ o.any (fun p => p.1 == k)) :
    getField (o ++ [(k, v)]) k = some v := by
  induction o with
  | nil => simp [getField_cons]
  | cons p o ih =>
    obtain ⟨a, b⟩ := p
    simp only [List.any_cons, Bool.or_eq_true, not_or] at h
    have ha : ¬(a = k) := by simpa using h.1
    simpa [getField_cons, ha] using ih (by simpa using h.2)

theorem getField_append_other (o : JsObj) (k k' : String) (v : JVal) (h : k' ≠ k) :
    getField (o ++ [(k, v)]) k' = getField o k' := by
  induction o with
  | nil =>
    have hne : ¬(k = k') := fun hh => h hh.symm
    simp [getField_cons, hne, getField]
  | cons p o ih =>
    obtain ⟨a, b⟩ := p
    simp [getField_cons, ih]

theorem getField_setField_same (o : JsObj) (k : String) (v : JVal) :
    getField (setField o k v) k = some v := by
  unfold setField
  by_cases h : o.any (fun p => p.1 == k)
  · rw [if_pos h, getField_map_overwrite, if_pos h]
  · rw [if_neg h]
    exact getField_append_absent o k v h

theorem getField_setField_other (o : JsObj) (k k' : String) (v : JVal) (h : k' ≠ k) :
    getField (setField o k v) k' = getField o k' := by
  unfold setField
  by_cases hany : o.any (fun p => p.1 == k)
  · rw [if_pos hany]
    exact getField_map_overwrite_other o k k' v h
  · rw [if_neg hany]
    exact getField_append_other o k k' v h

/-! ### C10: ingestion stamps the server timestamp -/

/-- C10: the record appended by `POST /api/payments` / `POST /api/refunds`
is the posted body with its `timestamp` field replaced by the server's
receipt time; any caller-supplied timestamp is discarded, every other
field is stored unchanged, and each endpoint responds with success and
the stored record. -/
theorem C10_ingestion_replaces_timestamp (store : List JsObj) (body : JsObj)
    (now : Int) (k : String) (hk : k ≠ "timestamp") :
    getField (ingestRecord body now) "timestamp" = some (.num now)
    ∧ getField (ingestRecord body now) k = getField body k
    ∧ postPaymentsHandler store body now
        = (store ++ [ingestRecord body now],
           { success := true, record := ingestRecord body now })
    ∧ postRefundsHandler store body now
        = (store ++ [ingestRecord body now],
           { success := true, record := ingestRecord body now }) :=
  ⟨getField_setField_same body "timestamp" (.num now),
   getField_setField_other body "timestamp" k (.num now) hk,
   rfl, rfl⟩

/-- Witness for C10: a posted payment with a caller-supplied timestamp 7
is stored with the server time 42 and an untouched `txHash`. -/
theorem C10_ingestion_replaces_timestamp_witness :
    ("txHash" : String) ≠ "timestamp"
    ∧ getField (ingestRecord [("txHash", .str "0xaa"), ("timestamp", .num 7)] 42)
        "timestamp" = some (.num 42)
    ∧ getField (ingestRecord [("txHash", .str "0xaa"), ("timestamp", .num 7)] 42)
        "txHash" = getField [("txHash", JVal.str "0xaa"), ("timestamp", JVal.num 7)] "txHash"
    ∧ postPaymentsHandler [] [("txHash", .str "0xaa"), ("timestamp", .num 7)] 42
        = ([ingestRecord [("txHash", .str "0xaa"), ("timestamp", .num 7)] 42],
           { success := true,
             record := ingestRecord [("txHash", .str "0xaa"), ("timestamp", .num 7)] 42 }) := by
  have h := C10_ingestion_replaces_timestamp []
    [("txHash", .str "0xaa"), ("timestamp", .num 7)] 42 "txHash" (by decide)
  exact ⟨by decide, h.1, h.2.1, h.2.2.1⟩

/-! ### C4: the append path is not insert-if-absent -/

/-- C4 counterexample: posting the same settlement payload twice stores it
twice — the second append changes the store and leaves two records with
the same transaction identifier, so the append path is not
insert-if-absent keyed by `txHash`. -/
theorem C4_counterexample :
    (postPaymentsHandler (postPaymentsHandler [] [("txHash", .str "0xdup")] 1).1
        [("txHash", .str "0xdup")] 2).1
      ≠ (postPaymentsHandler [] [("txHash", .str "0xdup")] 1).1
    ∧ countByTxHash
        (postPaymentsHandler (postPaymentsHandler [] [("txHash", .str "0xdup")] 1).1
          [("txHash", .str "0xdup")] 2).1 "0xdup" = 2 := by
  constructor <;> decide

/-- C4 amended: `POST /api/payments` appends unconditionally to the
module-global array: a record whose transaction identifier is already
present in the store is stored again, growing the count of records with
that identifier by one, instead of leaving the store unchanged. -/
theorem C4_append_grows_duplicate_count (store : List JsObj) (body : JsObj)
    (now : Int) (h : String) (hbody : getField body "txHash" = some (.str h)) :
    countByTxHash (postPaymentsHandler store body now).1 h
      = countByTxHash store h + 1 := by
  have htx : getField (ingestRecord body now) "txHash" = some (.str h) := by
    unfold ingestRecord
    rw [getField_setField_other body "timestamp" "txHash" (.num now) (by decide)]
    exact hbody
  show countByTxHash (store ++ [ingestRecord body now]) h = countByTxHash store h + 1
  unfold countByTxHash
  rw [List.filter_append, List.length_append]
  congr 1
  simp [List.filter, htx]

/-- Witness for C4 amended: re-posting an already-stored `txHash` takes
its per-identifier count from 1 to 2. -/
theorem C4_append_grows_duplicate_count_witness :
    getField [("txHash", JVal.str "0xdup")] "txHash" = some (.str "0xdup")
    ∧ countByTxHash
        (postPaymentsHandler [[("txHash", JVal.str "0xdup"), ("timestamp", JVal.num 1)]]
          [("txHash", JVal.str "0xdup")] 2).1 "0xdup"
      = countByTxHash [[("txHash", JVal.str "0xdup"), ("timestamp", JVal.num 1)]] "0xdup" + 1 :=
  ⟨by decide,
   C4_append_grows_duplicate_count
     [[("txHash", JVal.str "0xdup"), ("timestamp", JVal.num 1)]]
     [("txHash", JVal.str "0xdup")] 2 "0xdup" (by decide)⟩

/-! ### C1: merge-and-deduplicate of the two receipt sources -/

theorem jsInsertDesc_perm {α : Type} (ts : α → Int) (r : α) (l : List α) :
    (jsInsertDesc ts r l).Perm (r :: l) := by
  induction l with
  | nil => exact List.Perm.refl _
  | cons x xs ih =>
    unfold jsInsertDesc
    by_cases h : ts x ≤ ts r
    · rw [if_pos h]
    · rw [if_neg h]
      exact (List.Perm.cons x ih).trans (List.Perm.swap r x xs)

theorem jsSortDesc_perm {α : Type} (ts : α → Int) (l : List α) :
    (jsSortDesc ts l).Perm l := by
  induction l with
  | nil => exact List.Perm.refl _
  | cons x xs ih =>
    exact (jsInsertDesc_perm ts x (jsSortDesc ts xs)).trans (List.Perm.cons x ih)

theorem mem_jsInsertDesc {α : Type} (ts : α → Int) (r y : α) (l : List α)
    (h : y ∈ jsInsertDesc ts r l) : y = r ∨ y ∈ l :=
  by simpa using (jsInsertDesc_perm ts r l).mem_iff.1 h

theorem jsInsertDesc_pairwise {α : Type} (ts : α → Int) (r : α) (l : List α)
    (h : l.Pairwise (fun a b => ts b ≤ ts a)) :
    (jsInsertDesc ts r l).Pairwise (fun a b => ts b ≤ ts a) := by
  induction l with
  | nil => simp [jsInsertDesc]
  | cons x xs ih =>
    rcases List.pairwise_cons.1 h with ⟨hx, hxs⟩
    unfold jsInsertDesc
    by_cases hle : ts x ≤ ts r
    · rw [if_pos hle]
      refine List.pairwise_cons.2 ⟨?_, h⟩
      intro y hy
      rcases List.mem_cons.1 hy with rfl | hy
      · exact hle
      · exact le_trans (hx y hy) hle
    · rw [if_neg hle]
      refine List.pairwise_cons.2 ⟨?_, ih hxs⟩
      intro y hy
      rcases mem_jsInsertDesc ts r y xs hy with rfl | hy
      · exact le_of_not_le hle
      · exact hx y hy

theorem jsSortDesc_pairwise {α : Type} (ts : α → Int) (l : List α) :
    (jsSortDesc ts l).Pairwise (fun a b => ts b ≤ ts a) := by
  induction l with
  | nil => simp [jsSortDesc]
  | cons x xs ih => exact jsInsertDesc_pairwise ts x (jsSortDesc ts xs) ih

theorem mem_jsMapInsert {κ α : Type} [DecidableEq κ] (m : List (κ × α))
    (k : κ) (v : α) (p : κ × α) (h : p ∈ jsMapInsert m k v) :
    p ∈ m ∨ p = (k, v) := by
  unfold jsMapInsert at h
  by_cases hany : m.any (fun q => decide (q.1 = k))
  · rw [if_pos hany] at h
    obtain ⟨q, hq, hpq⟩ := List.mem_map.1 h
    by_cases hk : q.1 = k
    · right; rw [← hpq, if_pos hk]
    · left; rw [← hpq, if_neg hk]; exact hq
  · rw [if_neg hany] at h
    rcases List.mem_append.1 h with h | h
    · exact Or.inl h
    · exact Or.inr (by simpa using h)

theorem jsMapInsert_keys_overwrite {κ α : Type} [DecidableEq κ]
    (m : List (κ × α)) (k : κ) (v : α)
    (hany : m.any (fun q => decide (q.1 = k))) :
    (jsMapInsert m k v).map Prod.fst = m.map Prod.fst := by
  unfold jsMapInsert
  rw [if_pos hany, List.map_map]
  refine List.map_congr_left ?_
  intro q _
  by_cases hk : q.1 = k
  · simp [hk]
  · simp [hk]

theorem jsMapInsert_keys_nodup {κ α : Type} [DecidableEq κ]
    (m : List (κ × α)) (k : κ) (v : α)
    (h : (m.map Prod.fst).Nodup) :
    ((jsMapInsert m k v).map Prod.fst).Nodup := by
  by_cases hany : m.any (fun q => decide (q.1 = k))
  · rw [jsMapInsert_keys_overwrite m k v hany]
    exact h
  · unfold jsMapInsert
    rw [if_neg hany, List.map_append]
    have hk : k ∉ m.map Prod.fst := by
      intro hmem
      obtain ⟨q, hq, hqk⟩ := List.mem_map.1 hmem
      exact hany (List.any_eq_true.2 ⟨q, hq, by simpa using hqk⟩)
    refine List.Nodup.append h (by simp) ?_
    intro a ha hb
    simp only [List.map_cons, List.map_nil, List.mem_singleton] at hb
    subst hb
    exact hk ha

theorem mem_jsMapOfPairs_aux {κ α : Type} [DecidableEq κ] (l m : List (κ × α))
    (p : κ × α) (h : p ∈ l.foldl (fun m q => jsMapInsert m q.1 q.2) m) :
    p ∈ m ∨ p ∈ l := by
  induction l generalizing m with
  | nil => exact Or.inl h
  | cons q l ih =>
    rcases ih (jsMapInsert m q.1 q.2) h with hm | hl
    · rcases mem_jsMapInsert m q.1 q.2 p hm with hm' | heq
      · exact Or.inl hm'
      · right
        rw [heq]
        simp
    · exact Or.inr (List.mem_cons_of_mem q hl)

theorem mem_jsMapOfPairs {κ α : Type} [DecidableEq κ] (l : List (κ × α))
    (p : κ × α) (h : p ∈ jsMapOfPairs l) : p ∈ l := by
  rcases mem_jsMapOfPairs_aux l [] p h with hm | hl
  · simp at hm
  · exact hl

theorem jsMapOfPairs_keys_nodup_aux {κ α : Type} [DecidableEq κ]
    (l m : List (κ × α)) (hm : (m.map Prod.fst).Nodup) :
    ((l.foldl (fun m q => jsMapInsert m q.1 q.2) m).map Prod.fst).Nodup := by
  induction l generalizing m with
  | nil => exact hm
  | cons q l ih => exact ih _ (jsMapInsert_keys_nodup m q.1 q.2 hm)

theorem jsMapOfPairs_keys_nodup {κ α : Type} [DecidableEq κ] (l : List (κ × α)) :
    ((jsMapOfPairs l).map Prod.fst).Nodup :=
  jsMapOfPairs_keys_nodup_aux l [] (by simp)

theorem dedupByTxHash_txHash_nodup (l : List Receipt) :
    ((dedupByTxHash l).map (fun r => r.txHash)).Nodup := by
  unfold dedupByTxHash
  rw [List.map_map]
  have hcongr : (jsMapOfPairs (l.map fun r => (r.txHash, r))).map
        ((fun r => r.txHash) ∘ Prod.snd)
      = (jsMapOfPairs (l.map fun r => (r.txHash, r))).map Prod.fst := by
    refine List.map_congr_left ?_
    intro p hp
    obtain ⟨r, _, rfl⟩ := List.mem_map.1 (mem_jsMapOfPairs _ p hp)
    rfl
  rw [hcongr]
  exact jsMapOfPairs_keys_nodup _

theorem mergeReceiptsByTxHash_props (xs ys : List Receipt) (count : Nat) :
    ((mergeReceiptsByTxHash xs ys count).map (fun r => r.txHash)).Nodup
    ∧ (mergeReceiptsByTxHash xs ys count).Pairwise
        (fun a b => b.timestamp ≤ a.timestamp)
    ∧ (mergeReceiptsByTxHash xs ys count).length ≤ count := by
  unfold mergeReceiptsByTxHash sortByTsDesc
  refine ⟨?_, ?_, ?_⟩
  · have h1 := dedupByTxHash_txHash_nodup (xs ++ ys)
    have hperm := jsSortDesc_perm (fun r : Receipt => r.timestamp) (dedupByTxHash (xs ++ ys))
    have h2 : ((jsSortDesc (fun r : Receipt => r.timestamp)
        (dedupByTxHash (xs ++ ys))).map (fun r => r.txHash)).Nodup :=
      h1.perm (hperm.map (fun r => r.txHash)).symm
    rw [List.map_take]
    exact List.Nodup.sublist (List.take_sublist _ _) h2
  · exact List.Pairwise.sublist (List.take_sublist _ _)
      (jsSortDesc_pairwise (fun r : Receipt => r.timestamp) _)
  · rw [List.length_take]
    exact min_le_left _ _

theorem mergeRefunds_props (xs ys : List RefundEvent) (count : Nat) :
    (mergeRefunds xs ys count).Pairwise (fun a b => b.timestamp ≤ a.timestamp)
    ∧ (mergeRefunds xs ys count).length ≤ count := by
  unfold mergeRefunds sortRefundsByTsDesc
  refine ⟨?_, ?_⟩
  · exact List.Pairwise.sublist (List.take_sublist _ _)
      (jsSortDesc_pairwise (fun r : RefundEvent => r.timestamp) _)
  · rw [List.length_take]
    exact min_le_left _ _

/-- C1 counterexample: the two receipt sources hold the same transaction
identifier with differing payloads and equal timestamps; merging them in
the two possible orders yields different outputs (the JS `Map` keeps the
payload of whichever source is iterated last), so the merge is not
independent of the order in which the sources are combined. -/
theorem C1_counterexample :
    mergeReceiptsByTxHash [⟨"0xt", 5, "A", none⟩] [⟨"0xt", 5, "B", none⟩] 20
      = [⟨"0xt", 5, "B", none⟩]
    ∧ mergeReceiptsByTxHash [⟨"0xt", 5, "B", none⟩] [⟨"0xt", 5, "A", none⟩] 20
      = [⟨"0xt", 5, "A", none⟩]
    ∧ mergeReceiptsByTxHash [⟨"0xt", 5, "A", none⟩] [⟨"0xt", 5, "B", none⟩] 20
      ≠ mergeReceiptsByTxHash [⟨"0xt", 5, "B", none⟩] [⟨"0xt", 5, "A", none⟩] 20 := by
  refine ⟨?_, ?_, ?_⟩ <;> decide

/-- C1 amended: the list endpoints do return exactly one entry per
transaction identifier (the JS `Map` keeps the last payload written for a
key), sorted by timestamp descending and truncated to the requested
count — and the refunds merge is likewise sorted and truncated — but the
surviving payload depends on which source is iterated last, so the output
is not independent of the combination order when overlapping identifiers
carry differing payloads. -/
theorem C1_merge_dedups_sorts_truncates (persisted inMemory : List Receipt)
    (chainId : Int) (q : Option Nat) (rs1 rs2 : List RefundEvent) :
    ((getPaymentsHandler persisted inMemory chainId q).map
        (fun r => r.txHash)).Nodup
    ∧ (getPaymentsHandler persisted inMemory chainId q).Pairwise
        (fun a b => b.timestamp ≤ a.timestamp)
    ∧ (getPaymentsHandler persisted inMemory chainId q).length ≤ requestedCount q
    ∧ (mergeRefunds rs1 rs2 (requestedCount q)).Pairwise
        (fun a b => b.timestamp ≤ a.timestamp)
    ∧ (mergeRefunds rs1 rs2 (requestedCount q)).length ≤ requestedCount q := by
  have hp := mergeReceiptsByTxHash_props persisted
    (((sortByTsDesc inMemory).take (requestedCount q)).map (addExplorer chainId))
    (requestedCount q)
  have hr := mergeRefunds_props rs1 rs2 (requestedCount q)
  exact ⟨hp.1, hp.2.1, hp.2.2, hr.1, hr.2⟩
